import Mathlib

/-!
Verification of the TalentParse document extraction and scoring pipeline
(`app.py`). The Python source is shallowly embedded: pure helper functions
become Lean functions; external collaborators (the hash function, the
byte decoders of the standard library, and the JSON parser applied to the
judge responses) are fields of an `Ext` record of abstract total
functions; file-system state (the extraction cache, source-file deletion)
is passed explicitly. Machine floats that only ever get compared (scores,
modification times) are modelled as `Rat` / `Int`.
-/

namespace TalentParse

/-! ## Python string primitives used by the source -/

/-- Left and right brace characters, used by the response-span scan. -/
def lbrace : Char := Char.ofNat 123

/-- Right brace character. -/
def rbrace : Char := Char.ofNat 125

/-- Python `str.strip()`: drop leading and trailing whitespace. -/
def pstrip (s : String) : String :=
  String.mk (((s.data.dropWhile Char.isWhitespace).reverse.dropWhile Char.isWhitespace).reverse)

/-- Split a character list on a separator character (used to model
`str.splitlines`, with line terminators modelled as newlines). -/
def splitOnChar (sep : Char) (cs : List Char) : List (List Char) :=
  cs.foldr
    (fun c acc =>
      if c = sep then [] :: acc
      else
        match acc with
        | [] => [[c]]
        | g :: gs => (c :: g) :: gs)
    [[]]

/-- Split a character list at characters satisfying `p`. -/
def splitWhen (p : Char → Bool) (cs : List Char) : List (List Char) :=
  cs.foldr
    (fun c acc =>
      if p c then [] :: acc
      else
        match acc with
        | [] => [[c]]
        | g :: gs => (c :: g) :: gs)
    [[]]

/-- Python `str.split()` with no argument: whitespace-separated words,
empty chunks dropped. -/
def lineWords (l : List Char) : List (List Char) :=
  (splitWhen Char.isWhitespace l).filter (fun w => !w.isEmpty)

/-- Index of the first occurrence of a character (Python `str.find`,
with `none` for `-1`). -/
def charIdx (c : Char) : List Char → Option Nat
  | [] => none
  | d :: ds => if d = c then some 0 else (charIdx c ds).map (· + 1)

/-- Index of the last occurrence of a character (Python `str.rfind`,
with `none` for `-1`). -/
def lastCharIdx (c : Char) (cs : List Char) : Option Nat :=
  (charIdx c cs.reverse).map (fun j => cs.length - 1 - j)

/-! ## Data model

`CVObj` and `ScoreObj` model the JSON objects produced by `json.loads`
on the judge responses, restricted to the fields the program reads.
`none` in a field means the key is absent or bound to `null`. -/

/-- The candidate-record fields `parse_cv` reads back from the judge
response (`data.get("first_name")`, …). -/
structure CVObj where
  first_name : Option String
  last_name : Option String
  email : Option String
  phone : Option String
deriving DecidableEq, Repr

/-- The scoring-response fields the pipeline reads: `score` (a JSON
number, modelled as `Rat`) and `matching_points`. Either key may be
absent from the parsed object. -/
structure ScoreObj where
  score : Option Rat
  matching_points : Option (List String)
deriving DecidableEq, Repr

/-- External collaborators of the pipeline, as abstract total functions:
`hashlib.md5(...).hexdigest()`, `bytes.decode("utf-8", errors="ignore")`
(total because decode errors are ignored), and `json.loads` applied to
the two judge-response shapes. -/
structure Ext where
  md5 : String → String
  decodeU : List Nat → String
  parseCVJson : String → Option CVObj
  parseScoreJson : String → Option ScoreObj

/-! ## Judge-response span scan

`txt.find("{")`, `txt.rfind("}")`, and the slice `txt[s:e+1]`, guarded by
`s != -1 and e != -1 and e > s`. -/

/-- Locate the span between the first left brace and the last right brace
of a response, as in `parse_cv`, `parse_job` and `score_candidate`. -/
def findBraceSpan (txt : String) : Option String :=
  let cs := txt.data
  match charIdx lbrace cs, lastCharIdx rbrace cs with
  | some s, some e =>
    if s < e then some (String.mk ((cs.drop s).take (e - s + 1))) else none
  | _, _ => none

/-! ## Contact extraction (`extract_contacts`)

`re.findall` for the two patterns, scanning left to right, emitting
non-overlapping matches in order of appearance. The email pattern is
`[a-zA-Z0-9_.+-]+@[a-zA-Z0-9-]+\.[a-zA-Z0-9-.]+`; each character class
excludes the literal that follows it, so greedy matching without
backtracking is equivalent to the regex engine. -/

/-- Class `[a-zA-Z0-9_.+-]` (local part of the email pattern). -/
def emailLocalChar (c : Char) : Bool :=
  c.isAlpha || c.isDigit || c = '_' || c = '.' || c = '+' || c = '-'

/-- Class `[a-zA-Z0-9-]` (first domain label of the email pattern). -/
def emailDomChar (c : Char) : Bool :=
  c.isAlpha || c.isDigit || c = '-'

/-- Class `[a-zA-Z0-9-.]` (tail of the domain in the email pattern). -/
def emailDomDotChar (c : Char) : Bool :=
  emailDomChar c || c = '.'

/-- Try to match the email pattern anchored at the head of `cs`,
returning the match and the remaining characters. -/
def matchEmailAt (cs : List Char) : Option (List Char × List Char) :=
  let loc := cs.takeWhile emailLocalChar
  let r1 := cs.dropWhile emailLocalChar
  if loc.isEmpty then none
  else
    match r1 with
    | '@' :: r2 =>
      let d1 := r2.takeWhile emailDomChar
      let r3 := r2.dropWhile emailDomChar
      if d1.isEmpty then none
      else
        match r3 with
        | '.' :: r4 =>
          let d2 := r4.takeWhile emailDomDotChar
          let r5 := r4.dropWhile emailDomDotChar
          if d2.isEmpty then none
          else some (loc ++ '@' :: (d1 ++ '.' :: d2), r5)
        | _ => none
    | _ => none

/-- Left-to-right scan for email matches. The fuel starts at the length
of the text; every step consumes at least one character, so the fuel
never runs out on the initial call. -/
def scanEmailsGo : Nat → List Char → List String
  | 0, _ => []
  | _ + 1, [] => []
  | fuel + 1, c :: cs =>
    match matchEmailAt (c :: cs) with
    | some (m, rest) => String.mk m :: scanEmailsGo fuel rest
    | none => scanEmailsGo fuel cs

/-- `re.findall` of the email pattern: matches in order of appearance. -/
def scanEmails (cs : List Char) : List String :=
  scanEmailsGo cs.length cs

/-- Class `[\d\s\-]` (middle of the phone pattern). -/
def phoneMidChar (c : Char) : Bool :=
  c.isDigit || c.isWhitespace || c = '-'

/-- Backtracking of the phone pattern `\+?\d[\d\s\-]{6,}\d`: within the
maximal run of middle-class characters, find the last digit position
that still leaves at least six characters for the `{6,}` part. -/
def phoneSplit (mid : List Char) : Option Nat :=
  ((List.range mid.length).filter
    (fun j => decide (6 ≤ j) && (mid.getD j ' ').isDigit)).getLast?

/-- Try to match the phone pattern anchored at the head of `cs`. -/
def matchPhoneAt (cs : List Char) : Option (List Char × List Char) :=
  let pr : List Char × List Char :=
    match cs with
    | '+' :: r => (['+'], r)
    | _ => ([], cs)
  match pr.2 with
  | [] => none
  | d0 :: r1 =>
    if d0.isDigit then
      let mid := r1.takeWhile phoneMidChar
      let r2 := r1.dropWhile phoneMidChar
      match phoneSplit mid with
      | some j => some (pr.1 ++ d0 :: mid.take (j + 1), mid.drop (j + 1) ++ r2)
      | none => none
    else none

/-- Left-to-right scan for phone matches, fuelled like `scanEmailsGo`. -/
def scanPhonesGo : Nat → List Char → List String
  | 0, _ => []
  | _ + 1, [] => []
  | fuel + 1, c :: cs =>
    match matchPhoneAt (c :: cs) with
    | some (m, rest) => String.mk m :: scanPhonesGo fuel rest
    | none => scanPhonesGo fuel cs

/-- `re.findall` of the phone pattern: matches in order of appearance. -/
def scanPhones (cs : List Char) : List String :=
  scanPhonesGo cs.length cs

/-- The hint record built by `extract_contacts`: emails and phones in
order of first appearance in the text. -/
structure Contacts where
  emails : List String
  phones : List String
deriving DecidableEq, Repr

/-- `extract_contacts`: the two `re.findall` calls. -/
def extract_contacts (cv_text : String) : Contacts :=
  ⟨scanEmails cv_text.data, scanPhones cv_text.data⟩

/-! ## Name heuristic (`extract_name`) -/

/-- Scan the given lines for the first whose words number two or three
and are all alphabetic; yield `(words[0], " ".join(words[1:]))`. -/
def extract_name_go : List (List Char) → String × String
  | [] => ("", "")
  | l :: rest =>
    let ws := lineWords l
    if decide (2 ≤ ws.length) && decide (ws.length ≤ 3)
        && ws.all (fun w => w.all Char.isAlpha) then
      (String.mk (ws.headD []), String.intercalate " " ((ws.drop 1).map String.mk))
    else extract_name_go rest

/-- `extract_name`: line-by-line heuristic for a (first, last) name. -/
def extract_name (cv_text : String) : String × String :=
  extract_name_go (splitOnChar '\n' cv_text.data)

/-! ## LLM functions (`parse_cv`, `score_candidate`) -/

/-- Python truthiness of `data.get(key)` for a string field: `None`
(absent or null) and the empty string are falsy. -/
def truthy : Option String → Bool
  | none => false
  | some s => s != ""

/-- `if not data.get(k): data[k] = fallback` for the name fields. -/
def mergeName (v : Option String) (fallback : String) : Option String :=
  if truthy v then v else some fallback

/-- `if not data.get(k) and hints: data[k] = hints[0]` for the email and
phone fields: an explicit judge value wins; otherwise the first hint, if
any, is filled in; otherwise the field is left as the judge returned it. -/
def mergeHint (v : Option String) (hints : List String) : Option String :=
  if truthy v then v
  else
    match hints with
    | [] => v
    | h :: _ => some h

/-- `parse_cv`: contacts and name hints are computed from the text; the
judge response (`none` when `ollama.chat` raised) is scanned for a brace
span and parsed; on success the hint-merging assignments run, otherwise
the hint-only fallback record is returned. -/
def parse_cv (E : Ext) (resp : Option String) (cv_text : String) : CVObj :=
  let contacts := extract_contacts cv_text
  let fl := extract_name cv_text
  let fallbackRec : CVObj :=
    { first_name := some fl.1, last_name := some fl.2
      email := some (contacts.emails.headD "")
      phone := some (contacts.phones.headD "") }
  match resp with
  | none => fallbackRec
  | some txt =>
    match findBraceSpan txt with
    | none => fallbackRec
    | some sub =>
      match E.parseCVJson sub with
      | none => fallbackRec
      | some data =>
        { first_name := mergeName data.first_name fl.1
          last_name := mergeName data.last_name fl.2
          email := mergeHint data.email contacts.emails
          phone := mergeHint data.phone contacts.phones }

/-- `score_candidate`: any failure (chat exception, no brace span,
unparsable span) degrades to `{"score": 0.0, "matching_points": []}`;
a successfully parsed object is returned as is, even when it lacks the
`score` key. -/
def score_candidate (E : Ext) (resp : Option String) : ScoreObj :=
  match resp with
  | none => { score := some 0, matching_points := some [] }
  | some txt =>
    match findBraceSpan txt with
    | none => { score := some 0, matching_points := some [] }
    | some sub =>
      match E.parseScoreJson sub with
      | none => { score := some 0, matching_points := some [] }
      | some obj => obj

/-! ## PDF extraction (`extract_text_pdf`)

A PDF file is modelled by its page count, the direct text layer of each
page, the per-page OCR outcome (`none` when `pytesseract` raises), and
two failure switches: `parseOk` for the whole-document `fitz` parse
(failure modelled at open time, before any page is read) and `convertOk`
for `pdf2image.convert_from_path` (one switch for both call sites, since
both rasterize the same file with the same tool). -/

/-- Model of one PDF document together with the behaviour of the
external tools on it. -/
structure PdfFile where
  numPages : Nat
  pageText : Nat → String
  parseOk : Bool
  ocr : Nat → Option String
  convertOk : Bool

/-- The 0-based indices collected in `pages_without_text`: pages whose
direct text layer is empty or whitespace-only (`not (t and t.strip())`). -/
def badPages (pdf : PdfFile) : List Nat :=
  (List.range pdf.numPages).filter (fun i => pstrip (pdf.pageText i) == "")

/-- The direct text-layer parts appended for pages with real text. -/
def directParts (pdf : PdfFile) : List String :=
  (List.range pdf.numPages).filterMap
    (fun i =>
      if pstrip (pdf.pageText i) == "" then none else some (pdf.pageText i))

/-- OCR of a list of rasterized pages with the per-page `try`/`except`:
a failing page is skipped and the loop continues. -/
def ocrAppendAll (ocr : Nat → Option String) (pages : List Nat) : List String :=
  pages.filterMap ocr

/-- OCR of a list of rasterized pages with no per-page handler (the
whole-document fallback loop): a failing page raises out of the loop, so
it and every later page contribute nothing. -/
def ocrAppendUntilFail (ocr : Nat → Option String) : List Nat → List String
  | [] => []
  | i :: rest =>
    match ocr i with
    | some t => t :: ocrAppendUntilFail ocr rest
    | none => []

/-- The 0-based pages returned by `convert_from_path` with
`first_page = a + 1` and `last_page = b + 1`: pages `a` through `b`. -/
def pdfRange (a b : Nat) : List Nat :=
  (List.range (b + 1 - a)).map (a + ·)

/-- Python `max()` of a list of naturals (`0` on the empty list, which
the source never reaches). -/
def pymax : List Nat → Nat
  | [] => 0
  | x :: xs => xs.foldl Nat.max x

/-- Python `min()` of a list of naturals (`0` on the empty list, which
the source never reaches). -/
def pymin : List Nat → Nat
  | [] => 0
  | x :: xs => xs.foldl Nat.min x

/-- The outer `except` branch of `extract_text_pdf`: rasterize the whole
document and OCR page after page with no per-page handler; if even that
rasterization fails, the parts collected so far are kept unchanged.
Returns the parts and the list of rasterized page indices. -/
def pdfFallback (pdf : PdfFile) (acc : List String) : List String × List Nat :=
  if pdf.convertOk then
    (acc ++ ocrAppendUntilFail pdf.ocr (List.range pdf.numPages),
     List.range pdf.numPages)
  else (acc, [])

/-- `extract_text_pdf`, instrumented to also return the list of
rasterized page indices: direct text per page; if some pages lack text,
rasterize exactly the range from the least to the greatest such index
and OCR each page with failures skipped; a whole-document parse failure
or a rasterization failure falls through to `pdfFallback`. -/
def extract_text_pdf_parts (pdf : PdfFile) : List String × List Nat :=
  if pdf.parseOk then
    let direct := directParts pdf
    let bad := badPages pdf
    if bad.isEmpty then (direct, ([] : List Nat))
    else if pdf.convertOk then
      let pages := pdfRange (pymin bad) (pymax bad)
      (direct ++ ocrAppendAll pdf.ocr pages, pages)
    else pdfFallback pdf direct
  else pdfFallback pdf []

/-- The string `extract_text_pdf` returns: `"\n".join(text_parts).strip()`. -/
def extract_text_pdf (pdf : PdfFile) : String :=
  pstrip (String.intercalate "\n" (extract_text_pdf_parts pdf).1)

/-! ## DOCX and plain-text extraction -/

/-- `extract_text_docx`: paragraph texts joined by newlines and
stripped; any parse failure (`paras = none`) yields the empty string. -/
def extract_text_docx (paras : Option (List String)) : String :=
  match paras with
  | some ps => pstrip (String.intercalate "\n" ps)
  | none => ""

/-- Latin-1 decoding: each byte maps to the code point of its value
(total, so `errors="ignore"` never has anything to ignore). -/
def latin1Decode (bs : List Nat) : String :=
  String.mk (bs.map (fun b => Char.ofNat (b % 256)))

/-- `extract_text_plain`: try `read_text(encoding="utf-8",
errors="ignore")`; on any exception, `read_text(encoding="latin-1",
errors="ignore")` with no handler. `fileBytes = none` models an
unreadable or absent file, where both reads raise the same OS error. -/
def extract_text_plain (E : Ext) (fileBytes : Option (List Nat)) : Except String String :=
  match
    (match fileBytes with
     | some bs => Except.ok (E.decodeU bs)
     | none => Except.error "OSError") with
  | Except.ok s => Except.ok s
  | Except.error _ =>
    match fileBytes with
    | some bs => Except.ok (latin1Decode bs)
    | none => Except.error "OSError"

/-! ## Cache and `extract_text` -/

/-- The cache directory: an association list from cache-file path to the
text stored in it; writes prepend, reads take the most recent entry. -/
abbrev Cache := List (String × String)

/-- `_cache_path`: the md5 fingerprint of `f"{p.resolve()}:{p.stat().st_mtime}"`,
placed in the cache directory. The modification time is modelled as an
integer entering the key through its decimal form. -/
def _cache_path (E : Ext) (resolvedPath : String) (mtime : Int) : String :=
  "cache/" ++ E.md5 (resolvedPath ++ ":" ++ toString mtime) ++ ".txt"

/-- One on-disk document as `extract_text` sees it: identity for the
cache key, lowercase suffix for dispatch, and the per-format payloads. -/
structure Doc where
  resolvedPath : String
  mtime : Int
  ext : String
  pdf : PdfFile
  docxParas : Option (List String)
  plainBytes : Option (List Nat)

/-- The `if`/`elif` dispatch on the lowercase suffix inside
`extract_text`; unknown formats yield the empty string. -/
def extractByExt (E : Ext) (doc : Doc) : Except String String :=
  if doc.ext == ".pdf" then Except.ok (extract_text_pdf doc.pdf)
  else if doc.ext == ".docx" then Except.ok (extract_text_docx doc.docxParas)
  else if doc.ext == ".txt" then extract_text_plain E doc.plainBytes
  else Except.ok ""

/-- `extract_text`: a cache hit returns the stored text unchanged; a
miss extracts by format, then writes the text back (a failing write is
ignored: `writeOk = false` leaves the cache unchanged) and returns it.
An exception from the format extractor propagates. -/
def extract_text (E : Ext) (writeOk : Bool) (doc : Doc) (cache : Cache) :
    Except String (String × Cache) :=
  match List.lookup (_cache_path E doc.resolvedPath doc.mtime) cache with
  | some s => Except.ok (s, cache)
  | none =>
    match extractByExt E doc with
    | Except.error msg => Except.error msg
    | Except.ok text =>
      Except.ok (text,
        if writeOk then (_cache_path E doc.resolvedPath doc.mtime, text) :: cache
        else cache)

/-! ## Pipeline (`process_one`, the collection loop of `index`) -/

/-- One scheduled document task: the text its extraction produced, the
raw judge responses its two LLM calls will receive (`none` models a
raised exception), and whether `file_path.unlink()` would succeed. -/
structure DocTask where
  text : String
  judgeCVResp : Option String
  judgeScoreResp : Option String
  unlinkOk : Bool
deriving DecidableEq, Repr

/-- The dictionary `process_one` returns: either the `"error"` marker
for whitespace-only text, or the merged candidate and score data. -/
inductive ProcResult where
  | err : ProcResult
  | ok : CVObj → ScoreObj → ProcResult
deriving DecidableEq, Repr

/-- `process_one`, instrumented with whether the source file was
deleted: whitespace-only text returns the error marker at once, before
the `unlink` line is reached; otherwise the document is parsed and
scored and the file is unlinked (best effort). -/
def process_one (E : Ext) (tk : DocTask) : ProcResult × Bool :=
  if pstrip tk.text == "" then (ProcResult.err, false)
  else
    (ProcResult.ok (parse_cv E tk.judgeCVResp tk.text)
      (score_candidate E tk.judgeScoreResp),
     tk.unlinkOk)

/-- Whether a result dictionary carries the `"error"` key. -/
def isErr : ProcResult → Bool
  | ProcResult.err => true
  | ProcResult.ok _ _ => false

/-- The value of `r["score"]` as an optional lookup: `none` when the
merged dictionary has no `score` key. -/
def scoreOf : ProcResult → Option Rat
  | ProcResult.err => none
  | ProcResult.ok _ sc => sc.score

/-- The sort key actually compared once every lookup succeeded. -/
def skey (r : ProcResult) : Rat := (scoreOf r).getD 0

/-- Insertion step of a stable descending sort: `x` goes after every
already-placed element with a key at least as large, hence after all
elements equal to it and before all strictly smaller ones. -/
def insertDesc {α : Type} (key : α → Rat) (x : α) : List α → List α
  | [] => [x]
  | y :: ys => if key x < key y then y :: insertDesc key x ys else x :: y :: ys

/-- Stable descending sort by key, extensionally the behaviour of
`list.sort(key=..., reverse=True)`. -/
def sortDescInsert {α : Type} (key : α → Rat) : List α → List α
  | [] => []
  | x :: xs => insertDesc key x (sortDescInsert key xs)

/-- The tail of `index` after the collection loop: drop the error
dictionaries, then sort by `x["score"]` descending. A result without a
`score` key makes the key lookup raise `KeyError`, aborting the
request. -/
def finalize (collected : List ProcResult) : Except String (List ProcResult) :=
  let results := collected.filter (fun r => !isErr r)
  if results.all (fun r => (scoreOf r).isSome) then
    Except.ok (sortDescInsert skey results)
  else Except.error "KeyError: score"

/-- The result dictionary one completed task hands to the collector. -/
def procOut (E : Ext) (tk : DocTask) : ProcResult := (process_one E tk).1

/-- The run outcome as a function of the order in which the concurrent
tasks complete (`as_completed` appends results in completion order). -/
def runC (E : Ext) (completionOrder : List DocTask) : Except String (List ProcResult) :=
  finalize (completionOrder.map (procOut E))

/-- One row of `download_csv`: the exported columns of one result, with
`r.get(k, default)` lookups and `"; ".join` on the matching points. -/
def csvRow (r : ProcResult) : String × String × String × String × Rat × String :=
  match r with
  | ProcResult.err => ("", "", "", "", 0, "")
  | ProcResult.ok cv sc =>
    (cv.first_name.getD "", cv.last_name.getD "", cv.email.getD "",
     cv.phone.getD "", sc.score.getD 0,
     String.intercalate "; " (sc.matching_points.getD []))

/-- The export: one row per entry of `latest_results`, in order. -/
def csvRows (latest : List ProcResult) : List (String × String × String × String × Rat × String) :=
  latest.map csvRow

/-! ## Concrete fixtures used by witnesses and counterexamples -/

/-- A concrete external world for the cache claims: the hash is the
identity and the UTF-8 decode of any byte list is the string `hi`. -/
def E0 : Ext := ⟨fun s => s, fun _ => "hi", fun _ => none, fun _ => none⟩

/-- A concrete judge response whose parsed object scores 90 with
matching point `A`. -/
def respA : String := "\x7bA\x7d"

/-- A concrete judge response whose parsed object scores 90 with
matching point `B`. -/
def respB : String := "\x7bB\x7d"

/-- A concrete judge response whose parsed object is valid JSON but has
no `score` key. -/
def respM : String := "\x7bM\x7d"

/-- A concrete external world whose score-JSON parser recognises the
three responses above. -/
def E1 : Ext :=
  ⟨fun s => s, fun _ => "", fun _ => none,
   fun s =>
     if s = respA then some ⟨some 90, some ["A"]⟩
     else if s = respB then some ⟨some 90, some ["B"]⟩
     else if s = respM then some ⟨none, some []⟩
     else none⟩

/-- Task whose scoring response is `respA`. -/
def tA : DocTask := ⟨"x", none, some respA, true⟩

/-- Task whose scoring response is `respB`. -/
def tB : DocTask := ⟨"x", none, some respB, true⟩

/-- Task whose scoring response parses but lacks a `score` field. -/
def tM : DocTask := ⟨"x", none, some respM, true⟩

/-- Task whose scoring call raises (`ollama.chat` exception). -/
def tF : DocTask := ⟨"x", none, none, true⟩

/-- Task whose extracted text is whitespace-only; its `unlink` would
succeed if it were attempted. -/
def tWS : DocTask := ⟨"  ", none, none, true⟩

/-- The hint-only candidate record produced for the one-letter text `x`
(no contacts, no name line). -/
def cv0 : CVObj := ⟨some "", some "", some "", some ""⟩

/-- The collected result of `tA`. -/
def oA : ProcResult := ProcResult.ok cv0 ⟨some 90, some ["A"]⟩

/-- The collected result of `tB`. -/
def oB : ProcResult := ProcResult.ok cv0 ⟨some 90, some ["B"]⟩

/-- A collected result with score 40 used by the ranking witness. -/
def oC : ProcResult := ProcResult.ok cv0 ⟨some 40, some ["C"]⟩

/-- The spec example: a four-page PDF whose pages 0 and 3 lack a text
layer; OCR succeeds on every page with text `O`. -/
def pdf2 : PdfFile :=
  ⟨4, fun i => if i = 1 then "A" else if i = 2 then "B" else " ", true,
   fun _ => some "O", true⟩

/-- A three-page PDF whose whole-document parse fails and whose OCR
raises on page 1 but would succeed on pages 0 and 2. -/
def pdfC6 : PdfFile :=
  ⟨3, fun _ => "", false,
   fun i => if i = 0 then some "A" else if i = 2 then some "C" else none, true⟩

/-- A trivial PDF payload for documents of other formats. -/
def pdfDummy : PdfFile := ⟨0, fun _ => "", true, fun _ => none, true⟩

/-- A concrete plain-text document for the cache round-trip witness. -/
def doc0 : Doc := ⟨"/p", 1, ".txt", pdfDummy, none, some [104, 105]⟩

/-- A concrete judge response whose parsed candidate object carries an
explicit email and phone, both different from every hint in `txt0`. -/
def respJ : String := "\x7bJ\x7d"

/-- A concrete judge response whose parsed candidate object omits the
email and phone fields. -/
def respN : String := "\x7bN\x7d"

/-- A concrete external world whose candidate-JSON parser recognises
`respJ` and `respN`. -/
def E3 : Ext :=
  ⟨fun s => s, fun _ => "",
   fun s =>
     if s = respJ then some ⟨none, none, some "j@x.yy", some "+12345678"⟩
     else if s = respN then some ⟨none, none, none, none⟩
     else none,
   fun _ => none⟩

/-- A concrete document text containing one email hint and one phone
hint. -/
def txt0 : String := "mail a@b.cc tel 0612345678"

/-! ## Helper lemmas -/

theorem mem_insertDesc {α : Type} (key : α → Rat) {x a : α} {l : List α} :
    a ∈ insertDesc key x l ↔ a = x ∨ a ∈ l := by
  induction l with
  | nil => simp [insertDesc]
  | cons y ys ih =>
    by_cases h : key x < key y
    · simp only [insertDesc, if_pos h, List.mem_cons, ih]
      tauto
    · simp only [insertDesc, if_neg h, List.mem_cons]

theorem mem_sortDescInsert {α : Type} (key : α → Rat) {a : α} {l : List α} :
    a ∈ sortDescInsert key l ↔ a ∈ l := by
  induction l with
  | nil => simp [sortDescInsert]
  | cons x xs ih =>
    simp only [sortDescInsert, mem_insertDesc, ih, List.mem_cons]

theorem pairwise_insertDesc {α : Type} (key : α → Rat) {x : α} {l : List α}
    (h : l.Pairwise (fun a b => key b ≤ key a)) :
    (insertDesc key x l).Pairwise (fun a b => key b ≤ key a) := by
  induction l with
  | nil => simp [insertDesc]
  | cons y ys ih =>
    rcases List.pairwise_cons.mp h with ⟨hy, hys⟩
    by_cases hlt : key x < key y
    · rw [insertDesc, if_pos hlt]
      refine List.pairwise_cons.mpr ⟨?_, ih hys⟩
      intro z hz
      rcases (mem_insertDesc key).mp hz with rfl | hz
      · exact le_of_lt hlt
      · exact hy z hz
    · rw [insertDesc, if_neg hlt]
      refine List.pairwise_cons.mpr ⟨?_, h⟩
      intro z hz
      rcases List.mem_cons.mp hz with rfl | hz
      · exact le_of_not_lt hlt
      · exact le_trans (hy z hz) (le_of_not_lt hlt)

theorem pairwise_sortDescInsert {α : Type} (key : α → Rat) (l : List α) :
    (sortDescInsert key l).Pairwise (fun a b => key b ≤ key a) := by
  induction l with
  | nil => simp [sortDescInsert]
  | cons x xs ih => exact pairwise_insertDesc key ih

theorem filter_insertDesc {α : Type} (key : α → Rat) (s : Rat) (x : α) (l : List α) :
    (insertDesc key x l).filter (fun a => decide (key a = s)) =
      if key x = s then x :: l.filter (fun a => decide (key a = s))
      else l.filter (fun a => decide (key a = s)) := by
  induction l with
  | nil =>
    by_cases hx : key x = s <;> simp [insertDesc, List.filter, hx]
  | cons y ys ih =>
    by_cases hlt : key x < key y
    · rw [insertDesc, if_pos hlt]
      by_cases hx : key x = s
      · have hy : ¬ key y = s := by
          intro hys
          rw [hx, ← hys] at hlt
          exact lt_irrefl _ hlt
        simp [List.filter_cons, hy, hx, ih]
      · by_cases hy : key y = s <;>
          simp [List.filter_cons, hy, hx, ih]
    · rw [insertDesc, if_neg hlt]
      by_cases hx : key x = s <;> simp [List.filter_cons, hx]

theorem filter_sortDescInsert {α : Type} (key : α → Rat) (s : Rat) (l : List α) :
    (sortDescInsert key l).filter (fun a => decide (key a = s)) =
      l.filter (fun a => decide (key a = s)) := by
  induction l with
  | nil => simp [sortDescInsert]
  | cons x xs ih =>
    rw [sortDescInsert, filter_insertDesc]
    by_cases hx : key x = s <;> simp [List.filter_cons, hx, ih]

theorem mem_pdfRange {a b i : Nat} : i ∈ pdfRange a b ↔ a ≤ i ∧ i ≤ b := by
  simp only [pdfRange, List.mem_map, List.mem_range]
  constructor
  · rintro ⟨k, hk, rfl⟩
    omega
  · rintro ⟨h1, h2⟩
    exact ⟨i - a, by omega, by omega⟩

theorem foldl_max_mem (xs : List Nat) (a : Nat) :
    xs.foldl Nat.max a = a ∨ xs.foldl Nat.max a ∈ xs := by
  induction xs generalizing a with
  | nil => left; rfl
  | cons y ys ih =>
    rcases ih (Nat.max a y) with h | h
    · rcases Nat.le_total a y with hle | hle
      · right
        have hm : Nat.max a y = y := Nat.max_eq_right hle
        rw [List.foldl_cons, h, hm]
        exact List.mem_cons_self _ _
      · left
        have hm : Nat.max a y = a := Nat.max_eq_left hle
        rw [List.foldl_cons, h, hm]
    · right; exact List.mem_cons_of_mem _ h

theorem pymax_mem {l : List Nat} (h : l ≠ []) : pymax l ∈ l := by
  match l with
  | [] => exact absurd rfl h
  | x :: xs =>
    rcases foldl_max_mem xs x with hm | hm
    · rw [pymax, hm]; exact List.mem_cons_self _ _
    · exact List.mem_cons_of_mem _ hm

theorem badPages_lt {pdf : PdfFile} {i : Nat} (h : i ∈ badPages pdf) :
    i < pdf.numPages := by
  have := List.mem_filter.mp h
  exact List.mem_range.mp this.1

theorem mem_directParts {pdf : PdfFile} {j : Nat} (hj : j < pdf.numPages)
    (h : pstrip (pdf.pageText j) ≠ "") : pdf.pageText j ∈ directParts pdf := by
  refine List.mem_filterMap.mpr ⟨j, List.mem_range.mpr hj, ?_⟩
  rw [if_neg]
  simp [h]

theorem ocrAppendUntilFail_append (ocr : Nat → Option String) (l1 l2 : List Nat)
    (h : ∀ i ∈ l1, (ocr i).isSome) :
    ocrAppendUntilFail ocr (l1 ++ l2) = l1.filterMap ocr ++ ocrAppendUntilFail ocr l2 := by
  induction l1 with
  | nil => simp
  | cons i t ih =>
    have hi := h i (List.mem_cons_self _ _)
    cases hocr : ocr i with
    | none => rw [hocr] at hi; simp at hi
    | some v =>
      rw [List.cons_append, ocrAppendUntilFail, hocr, List.filterMap_cons, hocr,
        ih (fun j hj => h j (List.mem_cons_of_mem _ hj)), List.cons_append]

theorem procOut_ok {E : Ext} {tk : DocTask} (h : pstrip tk.text ≠ "") :
    procOut E tk =
      ProcResult.ok (parse_cv E tk.judgeCVResp tk.text)
        (score_candidate E tk.judgeScoreResp) := by
  simp [procOut, process_one, h]

theorem extract_pdf_noBad {pdf : PdfFile} (hp : pdf.parseOk = true)
    (hbad : badPages pdf = []) :
    extract_text_pdf_parts pdf = (directParts pdf, []) := by
  simp [extract_text_pdf_parts, hp, hbad]

theorem extract_pdf_primary {pdf : PdfFile} (hp : pdf.parseOk = true)
    (hc : pdf.convertOk = true) (hbad : badPages pdf ≠ []) :
    extract_text_pdf_parts pdf =
      (directParts pdf ++
         ocrAppendAll pdf.ocr (pdfRange (pymin (badPages pdf)) (pymax (badPages pdf))),
       pdfRange (pymin (badPages pdf)) (pymax (badPages pdf))) := by
  simp [extract_text_pdf_parts, hp, hc, hbad]

theorem mergeHint_explicit (e : String) (hints : List String) (he : e ≠ "") :
    mergeHint (some e) hints = some e := by
  simp [mergeHint, truthy, he]

theorem mergeHint_omitted (hints : List String) (h : hints ≠ []) :
    mergeHint none hints = some (hints.headD "") := by
  cases hints with
  | nil => exact absurd rfl h
  | cons x xs => simp [mergeHint, truthy]

theorem parse_cv_success (E : Ext) (rtxt txt sub : String) (data : CVObj)
    (hspan : findBraceSpan rtxt = some sub)
    (hparse : E.parseCVJson sub = some data) :
    parse_cv E (some rtxt) txt =
      { first_name := mergeName data.first_name (extract_name txt).1
        last_name := mergeName data.last_name (extract_name txt).2
        email := mergeHint data.email (extract_contacts txt).emails
        phone := mergeHint data.phone (extract_contacts txt).phones } := by
  simp [parse_cv, hspan, hparse]

/-! ## Claims -/

/-- Claim C1, counterexample: a task whose extracted text is whitespace
only returns the error marker with the deletion flag `false`, although
its `unlink` would have succeeded (`tWS.unlinkOk = true`), so the source
file is NOT deleted; the error marker is dropped by `finalize`. This
refutes the part of the claim stating that the file is deleted whenever
extraction ran. -/
theorem empty_text_not_deleted_cex :
    process_one E1 tWS = (ProcResult.err, false)
    ∧ tWS.unlinkOk = true
    ∧ finalize [(process_one E1 tWS).1] = Except.ok [] := by
  refine ⟨rfl, rfl, rfl⟩

/-- Claim C1 (amended): a document whose extraction yields only
whitespace is excluded from the final ranked sequence (the error marker
never appears in a `finalize` output, and export rows come only from
non-error results), but its source file is NOT deleted: `process_one`
returns before the deletion step. Deletion happens exactly for documents
whose extracted text is not whitespace-only, and then regardless of the
outcome of the judge calls. -/
theorem empty_text_excluded_but_not_deleted (E : Ext) (tk : DocTask)
    (h : pstrip tk.text = "") :
    process_one E tk = (ProcResult.err, false)
    ∧ (∀ collected out, finalize collected = Except.ok out → ProcResult.err ∉ out)
    ∧ (∀ tk2 : DocTask, pstrip tk2.text ≠ "" → (process_one E tk2).2 = tk2.unlinkOk)
    ∧ (∀ out : List ProcResult, ProcResult.err ∉ out →
        ∀ row ∈ csvRows out, ∃ r ∈ out, isErr r = false ∧ row = csvRow r) := by
  refine ⟨by simp [process_one, h], ?_, ?_, ?_⟩
  · intro collected out hout
    simp only [finalize] at hout
    split at hout
    · intro hmem
      cases hout
      have h1 := (mem_sortDescInsert skey).mp hmem
      have h2 := List.mem_filter.mp h1
      simp [isErr] at h2
    · cases hout
  · intro tk2 h2
    simp [process_one, h2]
  · intro out hni row hrow
    obtain ⟨r, hr, rfl⟩ := List.mem_map.mp hrow
    refine ⟨r, hr, ?_, rfl⟩
    cases r with
    | err => exact absurd hr hni
    | ok cv sc => rfl

/-- Claim C1, witness: the amended theorem applied to the concrete
whitespace-only task. -/
theorem empty_text_excluded_witness :
    process_one E1 tWS = (ProcResult.err, false) :=
  (empty_text_excluded_but_not_deleted E1 tWS rfl).1

/-- Claim C2: for a paginated document whose whole-document parse and
rasterization succeed, if some pages have whitespace-only direct text
then rasterization and OCR run on exactly the contiguous page range from
the least to the greatest such index (membership in `pdfRange` is
exactly the interval), and if no page lacks text no rasterization
occurs. -/
theorem ocr_range_minimal (pdf : PdfFile) (hp : pdf.parseOk = true)
    (hc : pdf.convertOk = true) :
    (badPages pdf = [] → extract_text_pdf_parts pdf = (directParts pdf, []))
    ∧ (badPages pdf ≠ [] →
        extract_text_pdf_parts pdf =
          (directParts pdf ++
             ocrAppendAll pdf.ocr
               (pdfRange (pymin (badPages pdf)) (pymax (badPages pdf))),
           pdfRange (pymin (badPages pdf)) (pymax (badPages pdf))))
    ∧ (∀ i, i ∈ pdfRange (pymin (badPages pdf)) (pymax (badPages pdf)) ↔
        pymin (badPages pdf) ≤ i ∧ i ≤ pymax (badPages pdf)) := by
  exact ⟨fun hbad => extract_pdf_noBad hp hbad,
    fun hbad => extract_pdf_primary hp hc hbad,
    fun i => mem_pdfRange⟩

/-- Claim C2, witness: the spec example, a four-page document whose
pages 0 and 3 lack a text layer; pages 0 through 3 are rasterized. -/
theorem ocr_range_minimal_witness :
    extract_text_pdf_parts pdf2 =
      (directParts pdf2 ++
         ocrAppendAll pdf2.ocr
           (pdfRange (pymin (badPages pdf2)) (pymax (badPages pdf2))),
       pdfRange (pymin (badPages pdf2)) (pymax (badPages pdf2))) :=
  (ocr_range_minimal pdf2 rfl rfl).2.1 (by decide)

/-- Claim C3, counterexample: the same two discovered tasks `tA, tB`
(equal scores, distinct matching points) produce different final
sequences under the two possible completion orders, so ties follow
completion order, not discovery order, and completion order IS
observable in the output. -/
theorem ranking_completion_order_cex :
    runC E1 [tA, tB] = Except.ok [oA, oB]
    ∧ runC E1 [tB, tA] = Except.ok [oB, oA]
    ∧ oA ≠ oB ∧ skey oA = skey oB := by
  refine ⟨rfl, rfl, by decide, rfl⟩

/-- Claim C3 (amended): the final sequence is sorted by score
descending, and any two results with equal scores appear in their
relative COLLECTION (completion) order — the sort is stable over the
order in which results were appended, so the completion order of
concurrent tasks is observable for tied scores. Stability is stated as:
for every score value, the subsequence of results carrying that score is
exactly the same, in the same order, as in the collected list. -/
theorem ranking_stable_over_completion (collected : List ProcResult)
    (hs : ((collected.filter (fun r => !isErr r)).all
      (fun r => (scoreOf r).isSome)) = true) :
    ∃ out, finalize collected = Except.ok out
      ∧ out.Pairwise (fun a b => skey b ≤ skey a)
      ∧ ∀ s : Rat, out.filter (fun r => decide (skey r = s)) =
          (collected.filter (fun r => !isErr r)).filter
            (fun r => decide (skey r = s)) := by
  refine ⟨sortDescInsert skey (collected.filter (fun r => !isErr r)), ?_,
    pairwise_sortDescInsert skey _, fun s => filter_sortDescInsert skey s _⟩
  simp only [finalize]
  rw [if_pos hs]

/-- Claim C3, witness: the amended theorem applied to collected results
with scores 90, 40, 90. -/
theorem ranking_stable_witness :
    ∃ out, finalize [oA, oC, oB] = Except.ok out
      ∧ out.Pairwise (fun a b => skey b ≤ skey a)
      ∧ ∀ s : Rat, out.filter (fun r => decide (skey r = s)) =
          (([oA, oC, oB]).filter (fun r => !isErr r)).filter
            (fun r => decide (skey r = s)) :=
  ranking_stable_over_completion [oA, oC, oB] (by decide)

/-- Claim C4 (code bug): one document whose scoring response is valid
JSON without a `score` field (`respM`) makes the whole run abort with a
`KeyError` at the sort, even though a sibling document `tA` scored
normally — document content CAN abort the run, contradicting the
claim. -/
theorem missing_score_aborts_run :
    runC E1 [tA, tM] = Except.error "KeyError: score" := by
  rfl

/-- Claim C5: a document whose scoring call raises degrades to score 0
with an empty matching-point list, still appears in the final output,
and every task of the run appears in the final output with its own
result. -/
theorem fault_isolation (E : Ext) (tasks : List DocTask) (tf : DocTask)
    (hmem : tf ∈ tasks) (hfail : tf.judgeScoreResp = none)
    (hne : ∀ tk ∈ tasks, pstrip tk.text ≠ "")
    (hsc : ∀ tk ∈ tasks, (score_candidate E tk.judgeScoreResp).score.isSome = true) :
    ∃ out, runC E tasks = Except.ok out
      ∧ ProcResult.ok (parse_cv E tf.judgeCVResp tf.text)
          { score := some 0, matching_points := some [] } ∈ out
      ∧ ∀ tk ∈ tasks, procOut E tk ∈ out := by
  have hfil : (tasks.map (procOut E)).filter (fun r => !isErr r)
      = tasks.map (procOut E) := by
    apply List.filter_eq_self.mpr
    intro r hr
    obtain ⟨tk, htk, rfl⟩ := List.mem_map.mp hr
    rw [procOut_ok (hne tk htk)]
    rfl
  have hallm : (tasks.map (procOut E)).all (fun r => (scoreOf r).isSome) = true := by
    apply List.all_eq_true.mpr
    intro r hr
    obtain ⟨tk, htk, rfl⟩ := List.mem_map.mp hr
    rw [procOut_ok (hne tk htk)]
    exact hsc tk htk
  refine ⟨sortDescInsert skey (tasks.map (procOut E)), ?_, ?_, ?_⟩
  · simp only [runC, finalize]
    rw [hfil, if_pos hallm]
  · have hdeg : procOut E tf =
        ProcResult.ok (parse_cv E tf.judgeCVResp tf.text)
          { score := some 0, matching_points := some [] } := by
      rw [procOut_ok (hne tf hmem), hfail]
      rfl
    rw [← hdeg]
    exact (mem_sortDescInsert skey).mpr (List.mem_map_of_mem _ hmem)
  · intro tk htk
    exact (mem_sortDescInsert skey).mpr (List.mem_map_of_mem _ htk)

/-- Claim C5, witness: a concrete run of two tasks in which the second
task's scoring call raises; both appear in the output. -/
theorem fault_isolation_witness :
    ∃ out, runC E1 [tA, tF] = Except.ok out
      ∧ ProcResult.ok (parse_cv E1 tF.judgeCVResp tF.text)
          { score := some 0, matching_points := some [] } ∈ out
      ∧ ∀ tk ∈ [tA, tF], procOut E1 tk ∈ out :=
  fault_isolation E1 [tA, tF] tF (by decide) rfl (by decide) (by decide)

/-- Claim C6, counterexample: a three-page document whose whole-document
parse fails and whose OCR raises on page 1: page 2's OCR would succeed
with text `C`, but the fallback loop aborts at page 1, so page 2
contributes nothing — refuting the part of the claim stating that pages
after the failing page still contribute. -/
theorem ocr_fallback_cex :
    pdfC6.parseOk = false
    ∧ pdfC6.ocr 2 = some "C"
    ∧ (extract_text_pdf_parts pdfC6).1 = ["A"]
    ∧ "C" ∉ (extract_text_pdf_parts pdfC6).1 := by
  refine ⟨rfl, rfl, rfl, by decide⟩

/-- Claim C6 (amended): when the whole-document parse fails (and the
fallback rasterization succeeds) every page is rasterized and OCR runs
page by page with NO per-page handler: an OCR failure on a page is
swallowed at the document level — extraction is not aborted and the text
collected so far is returned — but that page and every later page
contribute no text; only the pages before the first failure
contribute. -/
theorem ocr_fallback_stops_at_failure (pdf : PdfFile) (hp : pdf.parseOk = false)
    (hc : pdf.convertOk = true) :
    extract_text_pdf_parts pdf =
      (ocrAppendUntilFail pdf.ocr (List.range pdf.numPages),
       List.range pdf.numPages)
    ∧ (∀ l1 k l2, List.range pdf.numPages = l1 ++ k :: l2 →
        pdf.ocr k = none → (∀ i ∈ l1, (pdf.ocr i).isSome) →
        ocrAppendUntilFail pdf.ocr (List.range pdf.numPages)
          = l1.filterMap pdf.ocr) := by
  constructor
  · simp [extract_text_pdf_parts, hp, pdfFallback, hc]
  · intro l1 k l2 hsplit hk h1
    rw [hsplit, ocrAppendUntilFail_append _ _ _ h1]
    simp [ocrAppendUntilFail, hk]

/-- Claim C6, witness: the amended theorem applied to the concrete
fallback document with the failure at page 1. -/
theorem ocr_fallback_stops_witness :
    ocrAppendUntilFail pdfC6.ocr (List.range pdfC6.numPages)
      = [0].filterMap pdfC6.ocr :=
  (ocr_fallback_stops_at_failure pdfC6 rfl rfl).2 [0] 1 [2] (by decide) rfl (by decide)

/-- Claim C7: the cache key is a deterministic function of the resolved
path and the modification time, and extracting the same unchanged
document twice — first against a cache with no entry for its key, then
against the resulting cache — yields the same text both times (whether
or not the cache write succeeded). -/
theorem cache_deterministic_round_trip (E : Ext) (writeOk : Bool) (doc : Doc)
    (c0 c1 c2 : Cache) (t1 t2 : String)
    (hcold : List.lookup (_cache_path E doc.resolvedPath doc.mtime) c0 = none)
    (h1 : extract_text E writeOk doc c0 = Except.ok (t1, c1))
    (h2 : extract_text E writeOk doc c1 = Except.ok (t2, c2)) :
    (∀ p q : String, ∀ m n : Int, p = q → m = n →
      _cache_path E p m = _cache_path E q n)
    ∧ t1 = t2 := by
  refine ⟨by rintro p q m n rfl rfl; rfl, ?_⟩
  unfold extract_text at h1 h2
  rw [hcold] at h1
  cases hext : extractByExt E doc with
  | error msg =>
    rw [hext] at h1
    cases h1
  | ok text =>
    rw [hext] at h1
    simp only [Except.ok.injEq, Prod.mk.injEq] at h1
    obtain ⟨ht, hc1⟩ := h1
    subst ht
    cases writeOk with
    | true =>
      rw [if_pos rfl] at hc1
      subst hc1
      simp only [List.lookup, beq_self_eq_true, if_true] at h2
      simp only [Except.ok.injEq, Prod.mk.injEq] at h2
      exact h2.1
    | false =>
      rw [if_neg (by simp)] at hc1
      subst hc1
      rw [hcold, hext] at h2
      simp only [Except.ok.injEq, Prod.mk.injEq] at h2
      exact h2.1


/-- Claim C7, witness: the determinism and round-trip conclusions of the
cache theorem at the concrete plain-text document `doc0` and empty
cache. -/
theorem cache_round_trip_witness :
    _cache_path E0 "/p" 1 = _cache_path E0 "/p" 1 ∧ ("hi" : String) = "hi" :=
  ⟨(cache_deterministic_round_trip E0 true doc0 [] [("cache//p:1.txt", "hi")]
      [("cache//p:1.txt", "hi")] "hi" "hi" rfl rfl rfl).1 "/p" "/p" 1 1 rfl rfl,
   (cache_deterministic_round_trip E0 true doc0 [] [("cache//p:1.txt", "hi")]
      [("cache//p:1.txt", "hi")] "hi" "hi" rfl rfl rfl).2⟩

/-- Claim C8, counterexample: plain-text extraction of an absent or
unreadable file raises — the fallback read raises the same OS error —
refuting the part of the claim stating that extraction never raises for
every input including an unreadable or absent file. -/
theorem plain_extract_raises_cex :
    extract_text_plain E0 none = Except.error "OSError" := rfl

/-- Claim C8 (amended): plain-text extraction never raises on any
READABLE file: it decodes the bytes as UTF-8 with invalid sequences
ignored, so a decode failure cannot occur and the permissive fallback
decode is unreachable for readable files; only an OS-level read failure
(absent or unreadable file) propagates. -/
theorem plain_extract_total_on_readable (E : Ext) (bs : List Nat) :
    extract_text_plain E (some bs) = Except.ok (E.decodeU bs) := rfl

/-- Claim C9: for a candidate record successfully parsed from the judge
response, an explicit non-empty email from the judge is kept verbatim
(whatever the hints are, so also when it differs from every hint); when
the judge omits the email field and at least one hint email exists, the
first hint email in order of appearance in the text (the head of the
`extract_contacts` list, which scans the text left to right) is used as
the fallback — and likewise for the phone field. -/
theorem hint_non_override (E : Ext) (rtxt txt sub : String) (data : CVObj)
    (hspan : findBraceSpan rtxt = some sub)
    (hparse : E.parseCVJson sub = some data) :
    (∀ e, data.email = some e → e ≠ "" →
      (parse_cv E (some rtxt) txt).email = some e)
    ∧ (data.email = none → (extract_contacts txt).emails ≠ [] →
        (parse_cv E (some rtxt) txt).email
          = some ((extract_contacts txt).emails.headD ""))
    ∧ (∀ p, data.phone = some p → p ≠ "" →
        (parse_cv E (some rtxt) txt).phone = some p)
    ∧ (data.phone = none → (extract_contacts txt).phones ≠ [] →
        (parse_cv E (some rtxt) txt).phone
          = some ((extract_contacts txt).phones.headD "")) := by
  have hpc := parse_cv_success E rtxt txt sub data hspan hparse
  refine ⟨?_, ?_, ?_, ?_⟩
  · intro e he hne
    rw [hpc]
    show mergeHint data.email (extract_contacts txt).emails = some e
    rw [he]
    exact mergeHint_explicit e _ hne
  · intro he hh
    rw [hpc]
    show mergeHint data.email (extract_contacts txt).emails
      = some ((extract_contacts txt).emails.headD "")
    rw [he]
    exact mergeHint_omitted _ hh
  · intro p hp hne
    rw [hpc]
    show mergeHint data.phone (extract_contacts txt).phones = some p
    rw [hp]
    exact mergeHint_explicit p _ hne
  · intro hp hh
    rw [hpc]
    show mergeHint data.phone (extract_contacts txt).phones
      = some ((extract_contacts txt).phones.headD "")
    rw [hp]
    exact mergeHint_omitted _ hh

/-- Claim C9, witness: on `txt0` (hints `a@b.cc` and `0612345678`), the
judge response `respJ` with explicit differing contacts wins; the judge
response `respN` omitting both fields falls back to the first hints. -/
theorem hint_non_override_witness :
    (parse_cv E3 (some respJ) txt0).email = some "j@x.yy"
    ∧ (parse_cv E3 (some respN) txt0).email
        = some ((extract_contacts txt0).emails.headD "")
    ∧ (parse_cv E3 (some respJ) txt0).phone = some "+12345678"
    ∧ (parse_cv E3 (some respN) txt0).phone
        = some ((extract_contacts txt0).phones.headD "") :=
  ⟨(hint_non_override E3 respJ txt0 respJ
      ⟨none, none, some "j@x.yy", some "+12345678"⟩ rfl rfl).1 "j@x.yy" rfl
      (by decide),
   (hint_non_override E3 respN txt0 respN ⟨none, none, none, none⟩ rfl rfl).2.1
      rfl (by decide),
   (hint_non_override E3 respJ txt0 respJ
      ⟨none, none, some "j@x.yy", some "+12345678"⟩ rfl rfl).2.2.1 "+12345678"
      rfl (by decide),
   (hint_non_override E3 respN txt0 respN ⟨none, none, none, none⟩ rfl rfl).2.2.2
      rfl (by decide)⟩

/-- Claim C10 (implicit): in the primary OCR path, a page strictly
between the least and greatest whitespace-only indices that DOES have a
text layer is rasterized anyway, so when its OCR succeeds its content
enters the parts twice: once among the direct text-layer parts and once
among the OCR parts of the rasterized range. -/
theorem middle_pages_ocr_twice (pdf : PdfFile) (j : Nat) (t : String)
    (hp : pdf.parseOk = true) (hc : pdf.convertOk = true)
    (hbad : badPages pdf ≠ [])
    (hj1 : pymin (badPages pdf) < j) (hj2 : j < pymax (badPages pdf))
    (hgood : pstrip (pdf.pageText j) ≠ "")
    (hocr : pdf.ocr j = some t) :
    extract_text_pdf_parts pdf =
      (directParts pdf ++
         ocrAppendAll pdf.ocr
           (pdfRange (pymin (badPages pdf)) (pymax (badPages pdf))),
       pdfRange (pymin (badPages pdf)) (pymax (badPages pdf)))
    ∧ pdf.pageText j ∈ directParts pdf
    ∧ t ∈ ocrAppendAll pdf.ocr
        (pdfRange (pymin (badPages pdf)) (pymax (badPages pdf))) := by
  have hjn : j < pdf.numPages :=
    lt_trans hj2 (badPages_lt (pymax_mem hbad))
  refine ⟨extract_pdf_primary hp hc hbad, mem_directParts hjn hgood, ?_⟩
  exact List.mem_filterMap.mpr
    ⟨j, mem_pdfRange.mpr ⟨le_of_lt hj1, le_of_lt hj2⟩, hocr⟩

/-- Claim C10, witness: page 1 of the spec-example document `pdf2` has
text `A`, lies strictly between the bad pages 0 and 3, and its OCR text
`O` appears among the OCR parts. -/
theorem middle_pages_ocr_twice_witness :
    extract_text_pdf_parts pdf2 =
      (directParts pdf2 ++
         ocrAppendAll pdf2.ocr
           (pdfRange (pymin (badPages pdf2)) (pymax (badPages pdf2))),
       pdfRange (pymin (badPages pdf2)) (pymax (badPages pdf2)))
    ∧ pdf2.pageText 1 ∈ directParts pdf2
    ∧ "O" ∈ ocrAppendAll pdf2.ocr
        (pdfRange (pymin (badPages pdf2)) (pymax (badPages pdf2))) :=
  middle_pages_ocr_twice pdf2 1 "O" rfl rfl (by decide) (by decide) (by decide)
    (by decide) rfl

end TalentParse
